import Mathlib

/-!
Formal model of the demo-superimposition tool (`demsuperimpose.py`).

The tool merges a base demo with ghost demos.  This file gives a shallow
embedding of the program:

* message records and blocks (`Msg`, `Block`), with the fields the program
  reads or rewrites; all remaining fields of a record are collapsed into an
  opaque `rest` payload, which `dataclasses.replace` passes through unchanged;
* the base-demo analysis pass (`BaseInfo.process`);
* the ghost extraction pass (`ghostStep`, `ghostProcessAll`), a fold over the
  message stream carrying the generator state of `_GhostInfo.process_all`;
* the model-table builder, the entity-id allocator and the block rewriter
  (`buildModelDict`, `convert_entity_id`, `computeGhostIds`, `rewriteBlock`),
  assembled into `mainRewrite`, the rewriting part of `_main`.

Python floats only enter through timestamps, which the program merely compares,
so timestamps are embedded as rationals.  Fallible code (Python exceptions,
`KeyError` / `IndexError` / `TypeError`) is embedded as `Option` or, where the
error message matters, `Except String`.
-/

/-- Timestamps.  The program only ever compares them. -/
abbrev Time := ℚ

/-- Modelled from the spec: the message catalog is an external collaborator and
the two extended-id flag bits are "two independent bits"; `UpdateFlags.MOREBITS`
is modelled as bit 0. -/
def MOREBITS : Nat := 1

/-- Modelled from the spec: the second of the two independent extended-id flag
bits, `UpdateFlags.LONGENTITY`, modelled as bit 14. -/
def LONGENTITY : Nat := 16384

/-- Fields of `SpawnBaselineMessage` that the program touches; `rest` stands
for the remaining fields, preserved by `dataclasses.replace`. -/
structure BaselineData where
  entityNum : Nat
  modelindex : Option Nat
  rest : Nat
deriving DecidableEq

/-- Fields of `EntityUpdateMessage` that the program touches. -/
structure UpdateData where
  num : Nat
  modelindex : Option Nat
  flags : Nat
  rest : Nat
deriving DecidableEq

/-- The message kinds the program dispatches on (`messages` module); `other`
stands for any message kind the program passes through untouched. -/
inductive Msg where
  | serverInfo (modelsPrecache : List String) (maxClients : Nat) (rest : Nat)
  | setView (viewentityId : Nat)
  | updateName (playerId : Nat) (name : String)
  | updateColors (playerId : Nat) (color : Nat)
  | spawnBaseline (b : BaselineData)
  | spawnStatic (modelindex : Option Nat) (rest : Nat)
  | entityUpdate (u : UpdateData)
  | time (t : Time)
  | signOnNum (stage : Nat)
  | sound (ent : Nat) (rest : Nat)
  | tempEntity (isLightning : Bool) (beamEntityNum : Nat) (rest : Nat)
  | other (payload : Nat)
deriving DecidableEq

/-- A demo block: an ordered list of messages plus the untouched container
fields. -/
structure Block where
  messages : List Msg
  rest : Nat
deriving DecidableEq

/-- `[f x for x in l]` where `f` may raise: first failure aborts. -/
def optMapList (f : α → Option β) : List α → Option (List β)
  | [] => some []
  | a :: as =>
    match f a with
    | none => none
    | some b =>
      match optMapList f as with
      | none => none
      | some bs => some (b :: bs)

/-- A left fold where the step may raise. -/
def optFoldList (f : σ → α → Option σ) : σ → List α → Option σ
  | s, [] => some s
  | s, a :: as =>
    match f s a with
    | none => none
    | some s' => optFoldList f s' as

/-- A left fold where the step may raise with a message. -/
def exFoldList (f : σ → α → Except String σ) : σ → List α → Except String σ
  | s, [] => Except.ok s
  | s, a :: as =>
    match f s a with
    | Except.error e => Except.error e
    | Except.ok s' => exFoldList f s' as

/-- `_BaseInfo`: info extracted from a single pass through the base demo. -/
structure BaseInfo where
  models : Option (List String)
  max_entity_id : Option Nat
  max_clients : Option Nat
  first_non_client_entity_id : Option Nat
deriving DecidableEq

/-- State of the first loop of `_BaseInfo.process`. -/
structure Pass1State where
  server_info_seen : Bool
  models : Option (List String)
  max_entity_id : Option Nat
  max_clients : Option Nat
deriving DecidableEq

/-- One message of the first loop of `_BaseInfo.process`; raises on a second
server-info message. -/
def pass1step (s : Pass1State) (msg : Msg) : Option Pass1State :=
  match msg with
  | Msg.serverInfo ms mc _ =>
    if s.server_info_seen then none
    else some { s with server_info_seen := true, models := some ms, max_clients := some mc }
  | Msg.entityUpdate u =>
    some { s with max_entity_id :=
      match s.max_entity_id with
      | none => some u.num
      | some m => if m < u.num then some u.num else some m }
  | _ => some s

/-- One message of the second loop of `_BaseInfo.process` (the
`first_non_client_entity_id` scan); comparing with a missing `max_clients`
is a `TypeError`. -/
def pass2step (mcs : Option Nat) (fnce : Option Nat) (msg : Msg) : Option (Option Nat) :=
  match msg with
  | Msg.entityUpdate u =>
    match mcs with
    | none => none
    | some mc =>
      if mc < u.num then
        match fnce with
        | none => some (some u.num)
        | some f => if u.num < f then some (some u.num) else some fnce
      else some fnce
  | _ => some fnce

/-- `_BaseInfo.process`: two scans over all messages of all blocks. -/
def BaseInfo.process (blocks : List Block) : Option BaseInfo :=
  match optFoldList pass1step ⟨false, none, none, none⟩ ((blocks.map Block.messages).flatten) with
  | none => none
  | some s =>
    match optFoldList (pass2step s.max_clients) none ((blocks.map Block.messages).flatten) with
    | none => none
    | some fnce => some ⟨s.models, s.max_entity_id, s.max_clients, fnce⟩

/-- `_GhostInfo`: a parsed ghost segment.  `models` and `entity_baseline` keep
their Python optionality (`None` until first captured). -/
structure GhostInfo where
  models : Option (List String)
  entity_baseline : Option BaselineData
  entity_updates : List UpdateData
  times : List Time
  name : String
  color : Nat
deriving DecidableEq

/-- The loop state of `_GhostInfo.process_all`, including the list of segments
yielded so far. -/
structure GState where
  server_info_seen : Bool
  view_entity_id : Option Nat
  models : Option (List String)
  time : Option Time
  entity_baseline : Option BaselineData
  times : List Time
  entity_updates : List UpdateData
  name : String
  color : Nat
  out : List GhostInfo
deriving DecidableEq

/-- Initial state of `_GhostInfo.process_all`. -/
def initGState : GState :=
  ⟨false, none, none, none, none, [], [], "name not set", 0, []⟩

/-- The `_GhostInfo` value yielded from the current per-segment state. -/
def currentTrack (s : GState) : GhostInfo :=
  ⟨s.models, s.entity_baseline, s.entity_updates, s.times, s.name, s.color⟩

/-- One message of the `_GhostInfo.process_all` loop.  Mirrors the chain of
`isinstance` tests; the reset on a repeated server info clears the per-segment
fields listed in the source (note `name` and `color` are not among them). -/
def ghostStep (s : GState) (msg : Msg) : Except String GState :=
  match msg with
  | Msg.serverInfo ms _ _ =>
    if s.server_info_seen then
      Except.ok { s with
        out := s.out ++ [currentTrack s],
        server_info_seen := true, view_entity_id := none, models := some ms,
        time := none, entity_baseline := none, times := [], entity_updates := [] }
    else
      Except.ok { s with models := some ms, server_info_seen := true }
  | Msg.setView v => Except.ok { s with view_entity_id := some v }
  | Msg.updateName pid nm =>
    Except.ok (if s.view_entity_id = some (pid + 1) then { s with name := nm } else s)
  | Msg.updateColors pid c =>
    Except.ok (if s.view_entity_id = some (pid + 1) then { s with color := c } else s)
  | Msg.spawnBaseline b =>
    match s.view_entity_id with
    | none => Except.error "baseline received before set view"
    | some v => Except.ok (if b.entityNum = v then { s with entity_baseline := some b } else s)
  | Msg.time t =>
    match s.entity_baseline with
    | none => Except.error "time received before entity baseline"
    | some _ => Except.ok { s with time := some t }
  | Msg.entityUpdate u =>
    if s.view_entity_id = some u.num then
      match s.time with
      | none => Except.error "entity update received without time"
      | some tv =>
        Except.ok { s with entity_updates := s.entity_updates ++ [u],
                           times := s.times ++ [tv], time := none }
    else Except.ok s
  | _ => Except.ok s

/-- `_GhostInfo.process_all` run to completion: the list of yielded segments,
or the first raised error. -/
def ghostProcessAll (blocks : List Block) : Except String (List GhostInfo) :=
  match exFoldList ghostStep initGState ((blocks.map Block.messages).flatten) with
  | Except.error e => Except.error e
  | Except.ok s =>
    match s.entity_baseline with
    | none => Except.error "no view entity baseline"
    | some _ => Except.ok (s.out ++ [currentTrack s])

/-- Lookup in the model dictionary (Python dict keyed by model name; keys are
unique by construction, so an association-list lookup is faithful). -/
def dictLookup : List (String × Nat) → String → Option Nat
  | [], _ => none
  | (k, v) :: rest, key => if k = key then some v else dictLookup rest key

/-- The body of the dictionary-building loop:
`if model_name not in new_model_dict: new_model_dict[model_name] = len(new_model_dict) + 1`. -/
def addModel (d : List (String × Nat)) (name : String) : List (String × Nat) :=
  if (dictLookup d name).isSome then d else d ++ [(name, d.length + 1)]

/-- `new_model_dict`: first-seen order over the base model list and then each
ghost model list. -/
def buildModelDict (modelsList : List (List String)) : List (String × Nat) :=
  modelsList.foldl (fun d ms => ms.foldl addModel d) []

/-- `_MAX_SCOREBOARD`. -/
def MAX_SCOREBOARD : Nat := 16

/-- `new_num_clients = min(_MAX_SCOREBOARD, old_num_clients + len(ghost_infos))`. -/
def new_num_clients (oldN g : Nat) : Nat := min MAX_SCOREBOARD (oldN + g)

/-- `convert_entity_id` from `_main`: client ids pass through, ids above the
original client range are shifted by the number of newly added client slots.
(`newN ≥ oldN` whenever the function is reached, so the natural subtraction in
`id + newN - oldN` agrees with the Python arithmetic.) -/
def convert_entity_id (oldN newN : Nat) (entity_id : Nat) : Nat :=
  if entity_id < oldN + 1 then entity_id else entity_id + newN - oldN

/-- `ghost_entity_ids` from `_main`: the first `newN - oldN` ghosts get fresh
client slots; the rest are placed after `max_entity_id`, which is a `TypeError`
(modelled as failure) when the base demo had no entity update. -/
def computeGhostIds (oldN newN : Nat) (maxEnt : Option Nat) (g : Nat) : Option (List Nat) :=
  optMapList (fun i =>
    if i < newN - oldN then some (oldN + 1 + i)
    else match maxEnt with
         | none => none
         | some m => some (m + 1 + i)) (List.range g)

/-- `_convert_msg_entity`: apply the id conversion to every entity-id field. -/
def convert_msg_entity (conv : Nat → Nat) : Msg → Msg
  | Msg.spawnBaseline b => Msg.spawnBaseline { b with entityNum := conv b.entityNum }
  | Msg.entityUpdate u => Msg.entityUpdate { u with num := conv u.num }
  | Msg.sound e r => Msg.sound (conv e) r
  | Msg.tempEntity isL beam r =>
    if isL then Msg.tempEntity isL (conv beam) r else Msg.tempEntity isL beam r
  | m => m

/-- The model-number remap shared by the rewriter's branches:
`None` and `0` pass through, otherwise the name at `modelindex - 1` in the
owning demo's model list is looked up in the merged dictionary.  A missing
list (`models is None`), an out-of-range index (`IndexError`) or an unknown
name (`KeyError`) fail. -/
def convertModelNum (dict : List (String × Nat)) (models : Option (List String)) :
    Option Nat → Option (Option Nat)
  | none => some none
  | some 0 => some (some 0)
  | some (k + 1) =>
    match models with
    | none => none
    | some ms =>
      match ms.get? k with
      | none => none
      | some name =>
        match dictLookup dict name with
        | none => none
        | some n => some (some n)

/-- The per-message transform of the first rewriting loop of `_main`:
model-carrying messages get their model index remapped and their entity ids
converted; a server info gets its client count replaced; everything else goes
through `_convert_msg_entity`. -/
def rewriteMsg1 (dict : List (String × Nat)) (models : Option (List String))
    (conv : Nat → Nat) (newN : Nat) : Msg → Option Msg
  | Msg.spawnStatic mi r =>
    match convertModelNum dict models mi with
    | none => none
    | some mn => some (Msg.spawnStatic mn r)
  | Msg.spawnBaseline b =>
    match convertModelNum dict models b.modelindex with
    | none => none
    | some mn => some (Msg.spawnBaseline { b with entityNum := conv b.entityNum, modelindex := mn })
  | Msg.entityUpdate u =>
    match convertModelNum dict models u.modelindex with
    | none => none
    | some mn => some (Msg.entityUpdate { u with num := conv u.num, modelindex := mn })
  | Msg.serverInfo ms _ r => some (Msg.serverInfo ms newN r)
  | m => some (convert_msg_entity conv m)

/-- Is this message a `SpawnBaselineMessage`? -/
def isSpawnBaseline : Msg → Bool
  | Msg.spawnBaseline _ => true
  | _ => false

/-- Is this message a `SignOnNumMessage` with `stage == 3`? -/
def isSignOn3 : Msg → Bool
  | Msg.signOnNum s => s == 3
  | _ => false

/-- One step of the first rewriting loop of `_main`: records
`last_spawn_baseline_idx` (the length of the output built so far) when the
message is a spawn baseline, then appends the transformed message. -/
def rewriteLoopStep (dict : List (String × Nat)) (models : Option (List String))
    (conv : Nat → Nat) (newN : Nat) (acc : List Msg × Option Nat) (msg : Msg) :
    Option (List Msg × Option Nat) :=
  let lastIdx := if isSpawnBaseline msg then some acc.1.length else acc.2
  match rewriteMsg1 dict models conv newN msg with
  | none => none
  | some m => some (acc.1 ++ [m], lastIdx)

/-- The first rewriting loop of `_main` over one block. -/
def rewriteLoop (dict : List (String × Nat)) (models : Option (List String))
    (conv : Nat → Nat) (newN : Nat) (msgs : List Msg) : Option (List Msg × Option Nat) :=
  optFoldList (rewriteLoopStep dict models conv newN) ([], none) msgs

/-- Python `list.insert`: inserts before position `i` (appends when `i` is past
the end; negative indices cannot arise here). -/
def pyInsert (l : List Msg) (i : Nat) (x : Msg) : List Msg :=
  l.take i ++ [x] ++ l.drop i

/-- The baseline synthesized for one ghost: the ghost's own baseline with the
allocated entity id and the remapped model index.  A segment without a
baseline is an `AttributeError` (modelled as failure). -/
def synthGhostBaseline (dict : List (String × Nat)) (gid : Nat) (gi : GhostInfo) : Option Msg :=
  match gi.entity_baseline with
  | none => none
  | some b =>
    match convertModelNum dict gi.models b.modelindex with
    | none => none
    | some mn => some (Msg.spawnBaseline { b with entityNum := gid, modelindex := mn })

/-- The "add baselines onto baseline block" loop: each ghost's synthesized
baseline is inserted at `last_spawn_baseline_idx` (the same position every
time; inserting at a missing position is a `TypeError`). -/
def addGhostBaselines (dict : List (String × Nat)) (pairs : List (Nat × GhostInfo))
    (lastIdx : Option Nat) (ms : List Msg) : Option (List Msg) :=
  optFoldList (fun acc p =>
    match synthGhostBaseline dict p.1 p.2 with
    | none => none
    | some m =>
      match lastIdx with
      | none => none
      | some i => some (pyInsert acc i m)) ms pairs

/-- The "add name / color updates into sign_on=3 block" loop. -/
def addNameColors (newN : Nat) (pairs : List (Nat × GhostInfo)) (ms : List Msg) : List Msg :=
  pairs.foldl (fun acc p =>
    if p.1 < newN + 1 then
      acc ++ [Msg.updateName (p.1 - 1) p.2.name, Msg.updateColors (p.1 - 1) p.2.color]
    else acc) ms

/-- The loop of `bisect.bisect` (a.k.a. `bisect_right`), with the decreasing
measure `hi - lo` supplied as structural fuel. -/
def bisectGo (a : List Time) (x : Time) : Nat → Nat → Nat → Nat
  | 0, lo, _ => lo
  | fuel + 1, lo, hi =>
    if lo < hi then
      let mid := (lo + hi) / 2
      if x < a.getD mid 0 then bisectGo a x fuel lo mid
      else bisectGo a x fuel (mid + 1) hi
    else lo

/-- `bisect.bisect(a, x)`. -/
def bisectRight (a : List Time) (x : Time) : Nat :=
  bisectGo a x a.length 0 a.length

/-- Building the ghost update appended for sample index `k`: the stored update
with the allocated id, the remapped model index, and the extended-id bits OR'd
into the flags when the allocated id exceeds 255. -/
def buildGhostUpdate (dict : List (String × Nat)) (entityNum : Nat) (gi : GhostInfo)
    (k : Nat) : Option (List Msg) :=
  match gi.entity_updates.get? k with
  | none => none
  | some u =>
    match convertModelNum dict gi.models u.modelindex with
    | none => none
    | some mn =>
      some [Msg.entityUpdate
        ⟨entityNum, mn,
         (if 255 < entityNum then u.flags ||| MOREBITS ||| LONGENTITY else u.flags),
         u.rest⟩]

/-- The per-ghost body of the "add update messages" loop:
`time_idx = bisect.bisect(times, time) - 1`; a negative index is the
deliberate skip (no messages appended). -/
def ghostUpdateMsgs (dict : List (String × Nat)) (entityNum : Nat) (gi : GhostInfo)
    (t : Time) : Option (List Msg) :=
  let time_idx : Int := (bisectRight gi.times t : Int) - 1
  if 0 ≤ time_idx then buildGhostUpdate dict entityNum gi time_idx.toNat
  else some []

/-- The "add update messages" loop over all ghosts. -/
def addGhostUpdates (dict : List (String × Nat)) (pairs : List (Nat × GhostInfo))
    (t : Time) (ms : List Msg) : Option (List Msg) :=
  optFoldList (fun acc p =>
    match ghostUpdateMsgs dict p.1 p.2 t with
    | none => none
    | some new => some (acc ++ new)) ms pairs

/-- The whole per-block rewrite of `_main`: the first loop, then ghost
baselines if the block spawns baselines, then name/color announcements if the
block carries sign-on stage 3, then ghost updates if the block starts with a
time message. -/
def rewriteBlock (dict : List (String × Nat)) (models : Option (List String))
    (oldN newN : Nat) (ghostInfos : List GhostInfo) (ghostIds : List Nat)
    (block : Block) : Option Block :=
  match rewriteLoop dict models (convert_entity_id oldN newN) newN block.messages with
  | none => none
  | some (ms1, lastIdx) =>
    match (if block.messages.any isSpawnBaseline then
             addGhostBaselines dict (ghostIds.zip ghostInfos) lastIdx ms1
           else some ms1) with
    | none => none
    | some ms2 =>
      let ms3 := if block.messages.any isSignOn3 then
                   addNameColors newN (ghostIds.zip ghostInfos) ms2
                 else ms2
      match (match block.messages with
             | Msg.time t :: _ => addGhostUpdates dict (ghostIds.zip ghostInfos) t ms3
             | _ => some ms3) with
      | none => none
      | some ms4 => some { block with messages := ms4 }

/-- The rewriting part of `_main`, starting from the parsed base blocks and the
already-selected per-ghost `_GhostInfo` values: analysis, model-table and
allocator construction, then the block-by-block rewrite in original order. -/
def mainRewrite (baseBlocks : List Block) (ghostInfos : List GhostInfo) : Option (List Block) :=
  match BaseInfo.process baseBlocks with
  | none => none
  | some info =>
    match info.models with
    | none => none
    | some baseModels =>
      match optMapList (fun gi => gi.models) ghostInfos with
      | none => none
      | some ghostModels =>
        let dict := buildModelDict (baseModels :: ghostModels)
        match info.max_clients with
        | none => none
        | some oldN =>
          if oldN ≤ MAX_SCOREBOARD then
            let newN := new_num_clients oldN ghostInfos.length
            match computeGhostIds oldN newN info.max_entity_id ghostInfos.length with
            | none => none
            | some gids =>
              optMapList (rewriteBlock dict (some baseModels) oldN newN ghostInfos gids) baseBlocks
          else none

/-- A flag bit is set exactly when OR-ing it in changes nothing. -/
def flagSet (flags bit : Nat) : Prop := flags ||| bit = flags

/-- A model-index field is resolvable against a model list: absent, zero, or a
positive index whose predecessor is in range. -/
def modelIdxOk (models : List String) : Option Nat → Bool
  | some (k + 1) => decide (k < models.length)
  | _ => true

/-- The model-index fields of a message are resolvable against a model list. -/
def msgModelOk (models : List String) : Msg → Bool
  | Msg.spawnStatic mi _ => modelIdxOk models mi
  | Msg.spawnBaseline b => modelIdxOk models b.modelindex
  | Msg.entityUpdate u => modelIdxOk models u.modelindex
  | _ => true

/-- A ghost whose allocated id stays in the 8-bit range, used to instantiate
the flag theorem. -/
def exGhostC1 : GhostInfo := ⟨none, none, [⟨1, none, 0, 0⟩], [1], "g", 0⟩

/-- A ghost segment whose base demo pushes an update across the 255 boundary. -/
def exGhostC1cex : GhostInfo := ⟨some ["m", "w"], some ⟨1, none, 0⟩, [], [], "g", 0⟩

/-- First ghost of the two-ghost baseline-order example. -/
def exGhostC2a : GhostInfo := ⟨some ["w", "g0m"], some ⟨7, some 2, 70⟩, [], [], "n0", 0⟩

/-- Second ghost of the two-ghost baseline-order example. -/
def exGhostC2b : GhostInfo := ⟨some ["w", "g1m"], some ⟨8, some 2, 71⟩, [], [], "n1", 0⟩

/-- Base blocks of the zero-ghost round-trip example. -/
def exBlocksC4 : List Block :=
  [⟨[Msg.serverInfo ["a"] 1 0, Msg.entityUpdate ⟨2, some 1, 0, 0⟩], 0⟩]

/-- The analysis result of `exBlocksC4`. -/
def exInfoC4 : BaseInfo := ⟨some ["a"], some 2, some 1, some 2⟩

/-- The three-sample ghost of the spec's binary-search example. -/
def exGhostC5 : GhostInfo :=
  ⟨none, none, [⟨1, none, 0, 10⟩, ⟨1, none, 0, 20⟩, ⟨1, none, 0, 30⟩], [1, 2, 3], "g", 0⟩

/-- The timestamp 2.5 of the spec's binary-search example. -/
def qw52 : Time := ⟨5, 2, by decide, by norm_num⟩

/-- The timestamp 0.5 of the spec's binary-search example. -/
def qw12 : Time := ⟨1, 2, by decide, by norm_num⟩

/-! ## Helper lemmas -/

theorem optMapList_eq_some_map (f : α → Option β) (g : α → β) :
    ∀ l : List α, (∀ a ∈ l, f a = some (g a)) → optMapList f l = some (l.map g) := by
  intro l
  induction l with
  | nil => intro _; rfl
  | cons a as ih =>
    intro h
    have ha := h a (List.mem_cons_self a as)
    have hrest := ih (fun b hb => h b (List.mem_cons_of_mem a hb))
    simp [optMapList, ha, hrest]

theorem optMapList_id (f : α → Option α) :
    ∀ l : List α, (∀ a ∈ l, f a = some a) → optMapList f l = some l := by
  intro l h
  have := optMapList_eq_some_map f id l (by simpa using h)
  simpa using this

theorem optMapList_length (f : α → Option β) :
    ∀ (l : List α) (bs : List β), optMapList f l = some bs → bs.length = l.length := by
  intro l
  induction l with
  | nil => intro bs h; cases h; rfl
  | cons a as ih =>
    intro bs h
    unfold optMapList at h
    cases hf : f a with
    | none => rw [hf] at h; cases h
    | some b =>
      rw [hf] at h
      cases hrest : optMapList f as with
      | none => rw [hrest] at h; cases h
      | some bs' =>
        rw [hrest] at h
        cases h
        simp [ih bs' hrest]

theorem lor_absorb_left (x a b : Nat) : (x ||| a ||| b) ||| a = x ||| a ||| b := by
  apply Nat.eq_of_testBit_eq
  intro i
  simp [Nat.testBit_lor, Bool.or_assoc, Bool.or_comm, Bool.or_left_comm]

theorem lor_absorb_right (x a b : Nat) : (x ||| a ||| b) ||| b = x ||| a ||| b := by
  apply Nat.eq_of_testBit_eq
  intro i
  simp [Nat.testBit_lor, Bool.or_assoc, Bool.or_comm, Bool.or_left_comm]

/-! ## Claim C6 -/

/-- C6: the allocator computes `new_client_count = min(16, max_clients + ghost
count)`; ghost `i` receives the fresh client slot `old + 1 + i` when
`i < new - old` and otherwise the id `max_entity_id + 1 + i`; with base client
count 14 and 3 ghosts the client count caps at 16, the first two ghosts get
ids 15 and 16, and the third gets an id beyond the base's highest entity id. -/
theorem c6_allocator (m : Nat) :
    (∀ oldN g, new_num_clients oldN g = min 16 (oldN + g))
    ∧ (∀ oldN newN mE g, computeGhostIds oldN newN (some mE) g
        = some ((List.range g).map fun i =>
            if i < newN - oldN then oldN + 1 + i else mE + 1 + i))
    ∧ new_num_clients 14 3 = 16
    ∧ computeGhostIds 14 (new_num_clients 14 3) (some m) 3 = some [15, 16, m + 3]
    ∧ m < m + 3 := by
  refine ⟨fun oldN g => rfl, ?_, by decide, ?_, by omega⟩
  · intro oldN newN mE g
    apply optMapList_eq_some_map
    intro a _
    by_cases h : a < newN - oldN <;> simp [h]
  · simp [computeGhostIds, new_num_clients, MAX_SCOREBOARD, List.range_succ, optMapList]

/-! ## Claim C9 -/

/-- C9: a time message arriving while the tracked entity's baseline has not
been captured is a fatal error with the message
"time received before entity baseline". -/
theorem c9_time_before_baseline :
    (∀ (s : GState) (t : Time), s.entity_baseline = none →
       ghostStep s (Msg.time t) = Except.error "time received before entity baseline")
    ∧ ghostProcessAll [⟨[Msg.serverInfo ["w"] 1 0, Msg.setView 1, Msg.time 1], 0⟩]
        = Except.error "time received before entity baseline" := by
  constructor
  · intro s t h
    simp [ghostStep, h]
  · rfl

/-- Witness for C9: the initial state has no baseline and stepping a time
message from it raises. -/
theorem c9_witness :
    initGState.entity_baseline = none ∧
    ghostStep initGState (Msg.time 1) = Except.error "time received before entity baseline" :=
  ⟨rfl, c9_time_before_baseline.1 initGState 1 rfl⟩

/-! ## Claim C10 -/

/-- C10: a session-start message closing an earlier segment emits that segment
without any baseline check: the step succeeds and yields the current track
whatever `entity_baseline` holds; concretely, a first segment with no baseline
is yielded with an absent baseline and no error. -/
theorem c10_nonfinal_segment_unchecked :
    (∀ (s : GState) (ms : List String) (mc r : Nat), s.server_info_seen = true →
       ∃ s', ghostStep s (Msg.serverInfo ms mc r) = Except.ok s'
         ∧ s'.out = s.out ++ [currentTrack s])
    ∧ ghostProcessAll [⟨[Msg.serverInfo ["w"] 1 0, Msg.serverInfo ["w2"] 1 0, Msg.setView 1,
        Msg.spawnBaseline ⟨1, none, 0⟩], 0⟩]
        = Except.ok [⟨some ["w"], none, [], [], "name not set", 0⟩,
                     ⟨some ["w2"], some ⟨1, none, 0⟩, [], [], "name not set", 0⟩] := by
  constructor
  · intro s ms mc r h
    have hstep : ghostStep s (Msg.serverInfo ms mc r) = Except.ok { s with
        out := s.out ++ [currentTrack s],
        server_info_seen := true, view_entity_id := none, models := some ms,
        time := none, entity_baseline := none, times := [], entity_updates := [] } := by
      simp [ghostStep, h]
    exact ⟨_, hstep, rfl⟩
  · rfl

/-- Witness for C10: applying the step description to a state with an open
segment and no captured baseline. -/
theorem c10_witness :
    ∃ s', ghostStep { initGState with server_info_seen := true } (Msg.serverInfo ["w"] 1 0)
            = Except.ok s'
      ∧ s'.out = ({ initGState with server_info_seen := true } : GState).out
          ++ [currentTrack { initGState with server_info_seen := true }] :=
  c10_nonfinal_segment_unchecked.1 { initGState with server_info_seen := true } ["w"] 1 0 rfl

/-! ## Claim C7 -/

/-- C7 (amended): on a session-start closing an open segment the extractor
emits the segment and resets the view-entity id, model list, pending
timestamp, baseline and sample sequence — but the captured display name and
display color are NOT reset and carry over into the next segment. -/
theorem c7_segment_reset (s : GState) (ms : List String) (mc r : Nat)
    (h : s.server_info_seen = true) :
    ∃ s', ghostStep s (Msg.serverInfo ms mc r) = Except.ok s'
      ∧ s'.view_entity_id = none ∧ s'.models = some ms ∧ s'.time = none
      ∧ s'.entity_baseline = none ∧ s'.times = [] ∧ s'.entity_updates = []
      ∧ s'.name = s.name ∧ s'.color = s.color
      ∧ s'.out = s.out ++ [currentTrack s] := by
  have hstep : ghostStep s (Msg.serverInfo ms mc r) = Except.ok { s with
      out := s.out ++ [currentTrack s],
      server_info_seen := true, view_entity_id := none, models := some ms,
      time := none, entity_baseline := none, times := [], entity_updates := [] } := by
    simp [ghostStep, h]
  exact ⟨_, hstep, rfl, rfl, rfl, rfl, rfl, rfl, rfl, rfl, rfl⟩

/-- Counterexample to C7 as stated: a name captured in the first segment
("alice") survives into the second segment's emitted track even though the
second segment contains no name announcement, so the display name is not
part of the reset per-segment state. -/
theorem c7_counterexample :
    ghostProcessAll [⟨[Msg.serverInfo ["w"] 1 0, Msg.setView 1, Msg.updateName 0 "alice",
        Msg.spawnBaseline ⟨1, none, 0⟩, Msg.serverInfo ["w2"] 1 0, Msg.setView 1,
        Msg.spawnBaseline ⟨1, none, 1⟩], 0⟩]
      = Except.ok [⟨some ["w"], some ⟨1, none, 0⟩, [], [], "alice", 0⟩,
                   ⟨some ["w2"], some ⟨1, none, 1⟩, [], [], "alice", 0⟩]
    ∧ "alice" ≠ "name not set" := by
  exact ⟨rfl, by decide⟩

/-- Witness for C7: the reset description applied to a concrete open state. -/
theorem c7_witness :
    ∃ s', ghostStep { initGState with server_info_seen := true, name := "alice" }
            (Msg.serverInfo ["w2"] 1 0) = Except.ok s'
      ∧ s'.view_entity_id = none ∧ s'.models = some ["w2"] ∧ s'.time = none
      ∧ s'.entity_baseline = none ∧ s'.times = [] ∧ s'.entity_updates = []
      ∧ s'.name = ({ initGState with server_info_seen := true, name := "alice" } : GState).name
      ∧ s'.color = ({ initGState with server_info_seen := true, name := "alice" } : GState).color
      ∧ s'.out = ({ initGState with server_info_seen := true, name := "alice" } : GState).out
          ++ [currentTrack { initGState with server_info_seen := true, name := "alice" }] :=
  c7_segment_reset { initGState with server_info_seen := true, name := "alice" } ["w2"] 1 0 rfl

/-! ## Claim C8 -/

/-- C8 (amended): the extractor does not check that sample timestamps are
strictly increasing: a time message is accepted whenever a baseline exists,
and an update is appended whenever a timestamp is pending, with no comparison
against previously recorded times. -/
theorem c8_no_ordering_check :
    (∀ (s : GState) (t : Time) (b : BaselineData), s.entity_baseline = some b →
       ghostStep s (Msg.time t) = Except.ok { s with time := some t })
    ∧ (∀ (s : GState) (u : UpdateData) (tv : Time),
        s.view_entity_id = some u.num → s.time = some tv →
        ghostStep s (Msg.entityUpdate u) = Except.ok { s with
          entity_updates := s.entity_updates ++ [u], times := s.times ++ [tv], time := none }) := by
  constructor
  · intro s t b h
    simp [ghostStep, h]
  · intro s u tv h1 h2
    simp [ghostStep, h1, h2]

/-- Counterexample to C8 as stated: a ghost stream whose sample timestamps
come out of order ([3, 1]) is accepted by the extractor without any error,
so the strictly-increasing ordering is assumed, not checked. -/
theorem c8_counterexample :
    ghostProcessAll [⟨[Msg.serverInfo ["w"] 1 0, Msg.setView 1, Msg.spawnBaseline ⟨1, none, 0⟩,
        Msg.time 3, Msg.entityUpdate ⟨1, none, 0, 0⟩, Msg.time 1, Msg.entityUpdate ⟨1, none, 0, 1⟩],
        0⟩]
      = Except.ok [⟨some ["w"], some ⟨1, none, 0⟩, [⟨1, none, 0, 0⟩, ⟨1, none, 0, 1⟩], [3, 1],
          "name not set", 0⟩]
    ∧ ¬ List.Sorted (· < ·) [(3 : Time), 1] := by
  exact ⟨rfl, by decide⟩

/-- Witness for C8: the amended step descriptions at concrete states. -/
theorem c8_witness :
    ghostStep { initGState with entity_baseline := some ⟨1, none, 0⟩ } (Msg.time 2)
      = Except.ok { { initGState with entity_baseline := some ⟨1, none, 0⟩ } with time := some 2 }
    ∧ ghostStep { initGState with view_entity_id := some 1, time := some 2 }
        (Msg.entityUpdate ⟨1, none, 0, 0⟩)
      = Except.ok { { initGState with view_entity_id := some 1, time := some 2 } with
          entity_updates := [⟨1, none, 0, 0⟩], times := [2], time := none } :=
  ⟨c8_no_ordering_check.1 _ 2 ⟨1, none, 0⟩ rfl,
   c8_no_ordering_check.2 { initGState with view_entity_id := some 1, time := some 2 }
     ⟨1, none, 0, 0⟩ 2 rfl rfl⟩

/-! ## Claim C3 -/

/-- C3: for any ghost count not exceeding the spare client-slot capacity
`16 - max_clients`, the combined id mapping is injective: `convert_entity_id`
is injective (on all ids, hence on the ids occurring in the base demo), the
allocated ghost ids are pairwise distinct, and no ghost id equals any
converted id. -/
theorem c3_id_mapping_injective (oldN g : Nat) (mE : Option Nat)
    (h1 : oldN ≤ MAX_SCOREBOARD) (h2 : g ≤ MAX_SCOREBOARD - oldN) :
    (∀ a b, convert_entity_id oldN (new_num_clients oldN g) a
          = convert_entity_id oldN (new_num_clients oldN g) b → a = b)
    ∧ ∃ gids, computeGhostIds oldN (new_num_clients oldN g) mE g = some gids
        ∧ gids.Nodup
        ∧ ∀ id_ ∈ gids, ∀ b, convert_entity_id oldN (new_num_clients oldN g) b ≠ id_ := by
  have hsb : MAX_SCOREBOARD = 16 := rfl
  have hnew : new_num_clients oldN g = oldN + g := by
    simp only [new_num_clients, hsb]
    omega
  refine ⟨?_, (List.range g).map (fun i => oldN + 1 + i), ?_, ?_, ?_⟩
  · intro a b h
    simp only [convert_entity_id, hnew] at h
    split at h <;> split at h <;> omega
  · apply optMapList_eq_some_map
    intro a ha
    have : a < g := List.mem_range.mp ha
    have : a < new_num_clients oldN g - oldN := by omega
    simp [this]
  · refine List.Nodup.map ?_ (List.nodup_range g)
    intro a b h
    simp only at h
    omega
  · intro id_ hid b
    obtain ⟨i, hi, rfl⟩ := List.mem_map.mp hid
    have hig : i < g := List.mem_range.mp hi
    simp only [convert_entity_id, hnew]
    split <;> omega

/-- Witness for C3: the injectivity statement at base client count 14 and two
ghosts. -/
theorem c3_witness :
    (∀ a b, convert_entity_id 14 (new_num_clients 14 2) a
          = convert_entity_id 14 (new_num_clients 14 2) b → a = b)
    ∧ ∃ gids, computeGhostIds 14 (new_num_clients 14 2) none 2 = some gids
        ∧ gids.Nodup
        ∧ ∀ id_ ∈ gids, ∀ b, convert_entity_id 14 (new_num_clients 14 2) b ≠ id_ :=
  c3_id_mapping_injective 14 2 none (by decide) (by decide)

/-! ## Claim C1 -/

/-- C1 (amended): an appended ghost update gets the two extended-id bits OR'd
into the sample's flags exactly when the allocated id exceeds 255 (both bits
are then set), and otherwise keeps the sample's flags unchanged; a remapped
base-demo update keeps its original flags field untouched whatever its
converted id. -/
theorem c1_flags :
    (∀ (dict : List (String × Nat)) (gid : Nat) (gi : GhostInfo) (t : Time) (l : List Msg),
       ghostUpdateMsgs dict gid gi t = some l →
       ∀ m ∈ l, ∃ (u : UpdateData) (mn : Option Nat),
         gi.entity_updates.get? ((bisectRight gi.times t : Int) - 1).toNat = some u
         ∧ convertModelNum dict gi.models u.modelindex = some mn
         ∧ m = Msg.entityUpdate ⟨gid, mn,
               (if 255 < gid then u.flags ||| MOREBITS ||| LONGENTITY else u.flags), u.rest⟩
         ∧ (255 < gid → flagSet (u.flags ||| MOREBITS ||| LONGENTITY) MOREBITS
              ∧ flagSet (u.flags ||| MOREBITS ||| LONGENTITY) LONGENTITY))
    ∧ (∀ (dict : List (String × Nat)) (models : Option (List String)) (conv : Nat → Nat)
         (newN : Nat) (u : UpdateData) (m : Msg),
        rewriteMsg1 dict models conv newN (Msg.entityUpdate u) = some m →
        ∃ mn : Option Nat, m = Msg.entityUpdate ⟨conv u.num, mn, u.flags, u.rest⟩) := by
  constructor
  · intro dict gid gi t l h m hm
    simp only [ghostUpdateMsgs] at h
    split at h
    · unfold buildGhostUpdate at h
      split at h
      · cases h
      · rename_i u hu
        split at h
        · cases h
        · rename_i mn hmn
          cases h
          simp only [List.mem_singleton] at hm
          subst hm
          exact ⟨u, mn, hu, hmn, rfl,
            fun _ => ⟨lor_absorb_left _ MOREBITS LONGENTITY,
                      lor_absorb_right _ MOREBITS LONGENTITY⟩⟩
    · cases h
      cases hm
  · intro dict models conv newN u m h
    simp only [rewriteMsg1] at h
    split at h
    · cases h
    · cases h
      exact ⟨_, rfl⟩

/-- Counterexample to C1 as stated: with base client count 15 and one ghost
the renumbering shifts the base update with id 255 to id 256, but the first
rewriting loop leaves its flags field untouched, so the rewritten update has
id 256 > 255 with neither extended-id bit set. -/
theorem c1_counterexample :
    mainRewrite [⟨[Msg.serverInfo ["m"] 15 0, Msg.entityUpdate ⟨255, none, 0, 0⟩], 0⟩]
        [exGhostC1cex]
      = some [⟨[Msg.serverInfo ["m"] 16 0, Msg.entityUpdate ⟨256, none, 0, 0⟩], 0⟩]
    ∧ 255 < 256
    ∧ ¬ flagSet 0 MOREBITS ∧ ¬ flagSet 0 LONGENTITY := by
  refine ⟨by decide, by decide, ?_, ?_⟩
  · simp [flagSet, MOREBITS]
  · simp [flagSet, LONGENTITY]

/-- Witness for C1: the flag description instantiated on a ghost update with a
small allocated id and on a base update remap. -/
theorem c1_witness :
    (∀ m ∈ [Msg.entityUpdate ⟨15, none, 0, 0⟩], ∃ (u : UpdateData) (mn : Option Nat),
       exGhostC1.entity_updates.get? ((bisectRight exGhostC1.times 2 : Int) - 1).toNat = some u
       ∧ convertModelNum [] exGhostC1.models u.modelindex = some mn
       ∧ m = Msg.entityUpdate ⟨15, mn,
             (if 255 < 15 then u.flags ||| MOREBITS ||| LONGENTITY else u.flags), u.rest⟩
       ∧ (255 < 15 → flagSet (u.flags ||| MOREBITS ||| LONGENTITY) MOREBITS
            ∧ flagSet (u.flags ||| MOREBITS ||| LONGENTITY) LONGENTITY))
    ∧ (∃ mn : Option Nat, Msg.entityUpdate ⟨7, none, 3, 9⟩
         = Msg.entityUpdate ⟨(fun x => x) 7, mn, 3, 9⟩) :=
  ⟨c1_flags.1 [] 15 exGhostC1 2 [Msg.entityUpdate ⟨15, none, 0, 0⟩] (by decide),
   c1_flags.2 [] none (fun x => x) 5 ⟨7, none, 3, 9⟩ (Msg.entityUpdate ⟨7, none, 3, 9⟩) (by decide)⟩

/-! ## Claim C2 -/

theorem pyInsert_eq (ms : List Msg) (li : Nat) (m : Msg) :
    pyInsert ms li m = ms.take li ++ [m] ++ ms.drop li := rfl

theorem addGhostBaselines_shape (dict : List (String × Nat)) :
    ∀ (pairs : List (Nat × GhostInfo)) (bs : List Msg) (li : Nat) (ms : List Msg),
      li ≤ ms.length →
      optMapList (fun p => synthGhostBaseline dict p.1 p.2) pairs = some bs →
      addGhostBaselines dict pairs (some li) ms
        = some (ms.take li ++ bs.reverse ++ ms.drop li) := by
  intro pairs
  induction pairs with
  | nil =>
    intro bs li ms hle hm
    cases hm
    simp [addGhostBaselines, optFoldList]
  | cons p ps ih =>
    intro bs li ms hle hm
    unfold optMapList at hm
    cases hsb : synthGhostBaseline dict p.1 p.2 with
    | none => rw [hsb] at hm; cases hm
    | some b =>
      rw [hsb] at hm
      cases hrest : optMapList (fun p => synthGhostBaseline dict p.1 p.2) ps with
      | none => rw [hrest] at hm; cases hm
      | some bs' =>
        rw [hrest] at hm
        cases hm
        have hlen : (ms.take li).length = li := by
          simp [List.length_take]
          omega
        have hstep : addGhostBaselines dict (p :: ps) (some li) ms
            = addGhostBaselines dict ps (some li) (pyInsert ms li b) := by
          simp [addGhostBaselines, optFoldList, hsb]
        rw [hstep]
        have hle' : li ≤ (pyInsert ms li b).length := by
          simp [pyInsert, List.length_take]
          omega
        rw [ih bs' li (pyInsert ms li b) hle' hrest]
        congr 1
        have htake : (pyInsert ms li b).take li = ms.take li := by
          rw [pyInsert_eq ms li b, List.append_assoc]
          rw [List.take_append_of_le_length (le_of_eq hlen.symm)]
          simp [List.take_take]
        have hdrop : (pyInsert ms li b).drop li = [b] ++ ms.drop li := by
          rw [pyInsert_eq ms li b, List.append_assoc]
          rw [List.drop_append_of_le_length (le_of_eq hlen.symm)]
          simp [hlen]
        rw [htake, hdrop, List.reverse_cons]
        simp [List.append_assoc]

theorem addNameColors_append (newN : Nat) :
    ∀ (pairs : List (Nat × GhostInfo)) (ms : List Msg),
      ∃ e, addNameColors newN pairs ms = ms ++ e := by
  intro pairs
  induction pairs with
  | nil => intro ms; exact ⟨[], by simp [addNameColors]⟩
  | cons p ps ih =>
    intro ms
    by_cases h : p.1 < newN + 1
    · obtain ⟨e, he⟩ := ih (ms ++ [Msg.updateName (p.1 - 1) p.2.name,
        Msg.updateColors (p.1 - 1) p.2.color])
      refine ⟨[Msg.updateName (p.1 - 1) p.2.name, Msg.updateColors (p.1 - 1) p.2.color] ++ e, ?_⟩
      simp only [addNameColors, List.foldl_cons, if_pos h] at he ⊢
      rw [he]
      simp [List.append_assoc]
    · obtain ⟨e, he⟩ := ih ms
      refine ⟨e, ?_⟩
      simp only [addNameColors, List.foldl_cons, if_neg h] at he ⊢
      exact he

theorem addGhostUpdates_append (dict : List (String × Nat)) (t : Time) :
    ∀ (pairs : List (Nat × GhostInfo)) (ms out : List Msg),
      addGhostUpdates dict pairs t ms = some out → ∃ e, out = ms ++ e := by
  intro pairs
  induction pairs with
  | nil =>
    intro ms out h
    cases h
    exact ⟨[], by simp⟩
  | cons p ps ih =>
    intro ms out h
    unfold addGhostUpdates optFoldList at h
    cases hg : ghostUpdateMsgs dict p.1 p.2 t with
    | none => rw [hg] at h; cases h
    | some new =>
      rw [hg] at h
      obtain ⟨e, he⟩ := ih (ms ++ new) out h
      exact ⟨new ++ e, by rw [he, List.append_assoc]⟩

theorem phase4_append (dict : List (String × Nat)) (pairs : List (Nat × GhostInfo)) :
    ∀ (bms : List Msg) (ms3 ms4 : List Msg),
      (match bms with
       | Msg.time t :: _ => addGhostUpdates dict pairs t ms3
       | _ => some ms3) = some ms4 → ∃ e, ms4 = ms3 ++ e := by
  intro bms ms3 ms4 h
  cases bms with
  | nil =>
    cases h
    exact ⟨[], by simp⟩
  | cons hd tl =>
    cases hd <;>
      first
        | exact addGhostUpdates_append dict _ _ _ _ h
        | (cases h; exact ⟨[], by simp⟩)

/-- C2 (amended): when a block contains a baseline-spawn message, the rewriter
inserts exactly one synthesized baseline per ghost — each carrying the ghost's
allocated id and its model index remapped through the merged table — at the
recorded position of the last baseline-spawn of the rewritten block, but in
REVERSE ghost input order (each insertion happens at the same position); any
messages phases 3 and 4 add go after the rewritten block body. -/
theorem c2_baseline_insertion (dict : List (String × Nat)) (models : Option (List String))
    (oldN newN : Nat) (gis : List GhostInfo) (gids : List Nat) (block : Block)
    (ms1 : List Msg) (li : Nat) (bs : List Msg) (out : Block)
    (h1 : rewriteLoop dict models (convert_entity_id oldN newN) newN block.messages
            = some (ms1, some li))
    (h2 : li ≤ ms1.length)
    (h3 : block.messages.any isSpawnBaseline = true)
    (h4 : optMapList (fun p => synthGhostBaseline dict p.1 p.2) (gids.zip gis) = some bs)
    (h5 : rewriteBlock dict models oldN newN gis gids block = some out) :
    bs.length = (gids.zip gis).length
    ∧ ∃ tail, out.messages = ms1.take li ++ bs.reverse ++ ms1.drop li ++ tail := by
  refine ⟨optMapList_length _ _ _ h4, ?_⟩
  unfold rewriteBlock at h5
  rw [h1] at h5
  rw [h3] at h5
  simp only [if_true] at h5
  rw [addGhostBaselines_shape dict (gids.zip gis) bs li ms1 h2 h4] at h5
  set mid := ms1.take li ++ bs.reverse ++ ms1.drop li with hmid
  cases hsign : block.messages.any isSignOn3 with
  | false =>
    simp only [hsign, Bool.false_eq_true, if_false] at h5
    cases hp4 : (match block.messages with
                 | Msg.time t :: _ => addGhostUpdates dict (gids.zip gis) t mid
                 | _ => some mid) with
    | none => rw [hp4] at h5; cases h5
    | some ms4 =>
      rw [hp4] at h5
      cases h5
      obtain ⟨e, he⟩ := phase4_append dict (gids.zip gis) block.messages mid ms4 hp4
      exact ⟨e, by simp [he, hmid, List.append_assoc]⟩
  | true =>
    simp only [hsign, if_true] at h5
    obtain ⟨e1', he1'⟩ := addNameColors_append newN (gids.zip gis) mid
    rw [he1'] at h5
    cases hp4 : (match block.messages with
                 | Msg.time t :: _ => addGhostUpdates dict (gids.zip gis) t (mid ++ e1')
                 | _ => some (mid ++ e1')) with
    | none => rw [hp4] at h5; cases h5
    | some ms4 =>
      rw [hp4] at h5
      cases h5
      obtain ⟨e, he⟩ := phase4_append dict (gids.zip gis) block.messages (mid ++ e1') ms4 hp4
      exact ⟨e1' ++ e, by simp [he, hmid, List.append_assoc]⟩

/-- Counterexample to C2 as stated: with two ghosts the synthesized baselines
are both inserted at the same recorded position, so ghost 1's baseline
(allocated id 16) ends up BEFORE ghost 0's baseline (allocated id 15) in the
output — the reverse of ghost input order. -/
theorem c2_counterexample :
    computeGhostIds 14 16 none 2 = some [15, 16]
    ∧ mainRewrite [⟨[Msg.serverInfo ["w", "m"] 14 0, Msg.spawnBaseline ⟨20, some 1, 0⟩], 0⟩]
        [exGhostC2a, exGhostC2b]
      = some [⟨[Msg.serverInfo ["w", "m"] 16 0,
                Msg.spawnBaseline ⟨16, some 4, 71⟩,
                Msg.spawnBaseline ⟨15, some 3, 70⟩,
                Msg.spawnBaseline ⟨22, some 1, 0⟩], 0⟩]
    ∧ exGhostC2a.entity_baseline = some ⟨7, some 2, 70⟩
    ∧ exGhostC2b.entity_baseline = some ⟨8, some 2, 71⟩ := by
  exact ⟨by decide, by decide, rfl, rfl⟩

/-- Witness for C2: the insertion description instantiated on the concrete
two-ghost block. -/
theorem c2_witness :
    (let ms1 : List Msg := [Msg.serverInfo ["w", "m"] 16 0, Msg.spawnBaseline ⟨22, some 1, 0⟩]
     let bs : List Msg := [Msg.spawnBaseline ⟨15, some 3, 70⟩, Msg.spawnBaseline ⟨16, some 4, 71⟩]
     let out : Block := ⟨[Msg.serverInfo ["w", "m"] 16 0,
                          Msg.spawnBaseline ⟨16, some 4, 71⟩,
                          Msg.spawnBaseline ⟨15, some 3, 70⟩,
                          Msg.spawnBaseline ⟨22, some 1, 0⟩], 0⟩
     bs.length = (([15, 16] : List Nat).zip [exGhostC2a, exGhostC2b]).length
     ∧ ∃ tail, out.messages = ms1.take 1 ++ bs.reverse ++ ms1.drop 1 ++ tail) := by
  exact c2_baseline_insertion [("w", 1), ("m", 2), ("g0m", 3), ("g1m", 4)] (some ["w", "m"])
    14 16 [exGhostC2a, exGhostC2b] [15, 16]
    ⟨[Msg.serverInfo ["w", "m"] 14 0, Msg.spawnBaseline ⟨20, some 1, 0⟩], 0⟩
    [Msg.serverInfo ["w", "m"] 16 0, Msg.spawnBaseline ⟨22, some 1, 0⟩] 1
    [Msg.spawnBaseline ⟨15, some 3, 70⟩, Msg.spawnBaseline ⟨16, some 4, 71⟩]
    ⟨[Msg.serverInfo ["w", "m"] 16 0,
      Msg.spawnBaseline ⟨16, some 4, 71⟩,
      Msg.spawnBaseline ⟨15, some 3, 70⟩,
      Msg.spawnBaseline ⟨22, some 1, 0⟩], 0⟩
    (by decide) (by decide) (by decide) (by decide) (by decide)

/-! ## Claim C5 -/

theorem getD_eq_get (a : List Time) (n : Nat) (h : n < a.length) :
    a.getD n 0 = a.get ⟨n, h⟩ := by
  simp [List.getD_eq_getElem?_getD, List.getElem?_eq_getElem h, List.get_eq_getElem]

theorem sorted_getD_mono (a : List Time) (hs : a.Sorted (· ≤ ·)) {i j : Nat}
    (hij : i ≤ j) (hj : j < a.length) : a.getD i 0 ≤ a.getD j 0 := by
  have hi : i < a.length := lt_of_le_of_lt hij hj
  rcases Nat.eq_or_lt_of_le hij with h | h
  · subst h
    exact le_refl _
  · rw [getD_eq_get a i hi, getD_eq_get a j hj]
    exact List.Sorted.rel_get_of_lt hs h

theorem bisectGo_spec (a : List Time) (x : Time) (hs : a.Sorted (· ≤ ·)) :
    ∀ (fuel lo hi : Nat), lo ≤ hi → hi ≤ a.length → hi - lo ≤ fuel →
      (∀ i, i < lo → a.getD i 0 ≤ x) →
      (∀ i, hi ≤ i → i < a.length → x < a.getD i 0) →
      lo ≤ bisectGo a x fuel lo hi ∧ bisectGo a x fuel lo hi ≤ hi ∧
      (∀ i, i < bisectGo a x fuel lo hi → a.getD i 0 ≤ x) ∧
      (∀ i, bisectGo a x fuel lo hi ≤ i → i < a.length → x < a.getD i 0) := by
  intro fuel
  induction fuel with
  | zero =>
    intro lo hi h1 h2 h3 h4 h5
    have hlh : lo = hi := by omega
    subst hlh
    simp only [bisectGo]
    exact ⟨le_refl _, le_refl _, h4, h5⟩
  | succ fuel ih =>
    intro lo hi h1 h2 h3 h4 h5
    by_cases hlh : lo < hi
    · have hm1 : lo ≤ (lo + hi) / 2 := by omega
      have hm2 : (lo + hi) / 2 < hi := by omega
      by_cases hcmp : x < a.getD ((lo + hi) / 2) 0
      · have hgo : bisectGo a x (fuel + 1) lo hi = bisectGo a x fuel lo ((lo + hi) / 2) := by
          simp only [bisectGo, if_pos hlh, if_pos hcmp]
        rw [hgo]
        have hup : ∀ i, (lo + hi) / 2 ≤ i → i < a.length → x < a.getD i 0 := by
          intro i hi1 hi2
          exact lt_of_lt_of_le hcmp (sorted_getD_mono a hs hi1 hi2)
        obtain ⟨g1, g2, g3, g4⟩ := ih lo ((lo + hi) / 2) hm1 (by omega) (by omega) h4 hup
        exact ⟨g1, by omega, g3, g4⟩
      · have hcmp' : a.getD ((lo + hi) / 2) 0 ≤ x := not_lt.mp hcmp
        have hgo : bisectGo a x (fuel + 1) lo hi = bisectGo a x fuel ((lo + hi) / 2 + 1) hi := by
          simp only [bisectGo, if_pos hlh, if_neg hcmp]
        rw [hgo]
        have hlow : ∀ i, i < (lo + hi) / 2 + 1 → a.getD i 0 ≤ x := by
          intro i hi1
          by_cases hil : i < lo
          · exact h4 i hil
          · exact le_trans (sorted_getD_mono a hs (by omega) (by omega)) hcmp'
        obtain ⟨g1, g2, g3, g4⟩ := ih ((lo + hi) / 2 + 1) hi (by omega) h2 (by omega) hlow h5
        exact ⟨by omega, g2, g3, g4⟩
    · have hgo : bisectGo a x (fuel + 1) lo hi = lo := by
        simp only [bisectGo, if_neg hlh]
      rw [hgo]
      have hlh' : lo = hi := by omega
      exact ⟨le_refl _, by omega, h4, fun i hi1 hi2 => h5 i (by omega) hi2⟩

theorem bisectRight_spec (a : List Time) (x : Time) (hs : a.Sorted (· ≤ ·)) :
    bisectRight a x ≤ a.length ∧
    (∀ i, i < bisectRight a x → a.getD i 0 ≤ x) ∧
    (∀ i, bisectRight a x ≤ i → i < a.length → x < a.getD i 0) := by
  have := bisectGo_spec a x hs a.length 0 a.length (by omega) (le_refl _) (by omega)
    (fun i h => absurd h (Nat.not_lt_zero i)) (fun i h1 h2 => absurd h2 (by omega))
  exact ⟨this.2.1, this.2.2.1, this.2.2.2⟩

/-- C5: for a block starting with a time message, each ghost's appended update
is selected by `bisect` as the latest sample with timestamp ≤ the block time:
if every sample is later than the block time, nothing is appended and no
error is raised; otherwise `bisect` returns `k + 1` where `k` is the greatest
index whose timestamp is ≤ the block time, and the appended messages are the
ones built from sample `k`. -/
theorem c5_sample_selection (dict : List (String × Nat)) (gid : Nat) (gi : GhostInfo)
    (t : Time) (hs : gi.times.Sorted (· < ·)) :
    ((∀ x ∈ gi.times, t < x) → ghostUpdateMsgs dict gid gi t = some [])
    ∧ ((∃ x ∈ gi.times, x ≤ t) → ∃ k,
        bisectRight gi.times t = k + 1
        ∧ (∃ v, gi.times.get? k = some v ∧ v ≤ t)
        ∧ (∀ j w, gi.times.get? j = some w → w ≤ t → j ≤ k)
        ∧ ghostUpdateMsgs dict gid gi t = buildGhostUpdate dict gid gi k) := by
  have hs' : gi.times.Sorted (· ≤ ·) := hs.imp (fun h => le_of_lt h)
  obtain ⟨hlen, hlow, hhigh⟩ := bisectRight_spec gi.times t hs'
  constructor
  · intro hall
    have hr : bisectRight gi.times t = 0 := by
      by_contra hne
      have h0 : 0 < bisectRight gi.times t := Nat.pos_of_ne_zero hne
      have h0l : 0 < gi.times.length := lt_of_lt_of_le h0 hlen
      have hle := hlow 0 h0
      rw [getD_eq_get gi.times 0 h0l] at hle
      exact absurd hle (not_le.mpr (hall _ (gi.times.get_mem 0 h0l)))
    simp only [ghostUpdateMsgs, hr]
    norm_num
  · rintro ⟨x, hxmem, hxle⟩
    obtain ⟨j, hget⟩ := List.mem_iff_get.mp hxmem
    have hr0 : bisectRight gi.times t ≠ 0 := by
      intro h0
      have := hhigh j.1 (by omega) j.2
      rw [getD_eq_get gi.times j.1 j.2] at this
      rw [hget] at this
      exact absurd hxle (not_le.mpr this)
    obtain ⟨k, hk⟩ := Nat.exists_eq_succ_of_ne_zero hr0
    have hklen : k < gi.times.length := by omega
    refine ⟨k, hk, ?_, ?_, ?_⟩
    · refine ⟨gi.times.get ⟨k, hklen⟩, List.get?_eq_get hklen, ?_⟩
      have := hlow k (by omega)
      rwa [getD_eq_get gi.times k hklen] at this
    · intro j' w hw hwle
      by_contra hgt
      have hjlen : j' < gi.times.length := (List.get?_eq_some.mp hw).1
      have hlarge := hhigh j' (by omega) hjlen
      rw [getD_eq_get gi.times j' hjlen] at hlarge
      have : w = gi.times.get ⟨j', hjlen⟩ := by
        have := List.get?_eq_get hjlen
        rw [this] at hw
        exact (Option.some.inj hw).symm
      rw [this] at hwle
      exact absurd hwle (not_le.mpr hlarge)
    · simp only [ghostUpdateMsgs, hk]
      have hcond : (0 : Int) ≤ (↑(k + 1) : Int) - 1 := by omega
      rw [if_pos hcond]
      congr 1
      omega

/-- Witness for C5: the selection description on the spec's example — samples
at times [1, 2, 3], a block at time 2.5 selects the sample at 2, a block at
time 0.5 yields nothing. -/
theorem c5_witness :
    List.Sorted (· < ·) exGhostC5.times
    ∧ ((∃ x ∈ exGhostC5.times, x ≤ qw52) → ∃ k,
        bisectRight exGhostC5.times qw52 = k + 1
        ∧ (∃ v, exGhostC5.times.get? k = some v ∧ v ≤ qw52)
        ∧ (∀ j w, exGhostC5.times.get? j = some w → w ≤ qw52 → j ≤ k)
        ∧ ghostUpdateMsgs [] 15 exGhostC5 qw52 = buildGhostUpdate [] 15 exGhostC5 k)
    ∧ ((∀ x ∈ exGhostC5.times, qw12 < x) → ghostUpdateMsgs [] 15 exGhostC5 qw12 = some [])
    ∧ ghostUpdateMsgs [] 15 exGhostC5 qw52 = some [Msg.entityUpdate ⟨15, none, 0, 20⟩]
    ∧ ghostUpdateMsgs [] 15 exGhostC5 qw12 = some [] :=
  ⟨by decide,
   (c5_sample_selection [] 15 exGhostC5 qw52 (by decide)).2,
   (c5_sample_selection [] 15 exGhostC5 qw12 (by decide)).1,
   by decide, by decide⟩

/-! ## Claim C4 -/

theorem dictLookup_append (d : List (String × Nat)) (nm : String) (v : Nat) (key : String) :
    dictLookup (d ++ [(nm, v)]) key
      = match dictLookup d key with
        | some x => some x
        | none => if nm = key then some v else none := by
  induction d with
  | nil => rfl
  | cons p ps ih =>
    obtain ⟨k1, v1⟩ := p
    by_cases h : k1 = key <;> simp [dictLookup, h, ih]

theorem dictLookup_foldl_preserve :
    ∀ (l : List String) (d0 : List (String × Nat)) (key : String) (x : Nat),
      dictLookup d0 key = some x → dictLookup (l.foldl addModel d0) key = some x := by
  intro l
  induction l with
  | nil => intro d0 key x h; exact h
  | cons a as ih =>
    intro d0 key x h
    simp only [List.foldl_cons]
    by_cases ha : (dictLookup d0 a).isSome
    · have he : addModel d0 a = d0 := by simp [addModel, ha]
      rw [he]
      exact ih d0 key x h
    · have he : addModel d0 a = d0 ++ [(a, d0.length + 1)] := by simp [addModel, ha]
      rw [he]
      refine ih _ key x ?_
      rw [dictLookup_append, h]

theorem foldl_addModel_lookup :
    ∀ (ms : List String) (d : List (String × Nat)), ms.Nodup →
      (∀ nm ∈ ms, dictLookup d nm = none) →
      ∀ (k : Nat) (hk : k < ms.length),
        dictLookup (ms.foldl addModel d) (ms.get ⟨k, hk⟩) = some (d.length + k + 1) := by
  intro ms
  induction ms with
  | nil => intro d _ _ k hk; exact absurd hk (by simp)
  | cons nm tl ih =>
    intro d hnd hnone k hk
    have hnm : dictLookup d nm = none := hnone nm (List.mem_cons_self nm tl)
    have hstep : addModel d nm = d ++ [(nm, d.length + 1)] := by
      simp [addModel, hnm]
    have hd' : ∀ nm' ∈ tl, dictLookup (d ++ [(nm, d.length + 1)]) nm' = none := by
      intro nm' hmem
      rw [dictLookup_append]
      have h1 : dictLookup d nm' = none := hnone nm' (List.mem_cons_of_mem nm hmem)
      have h2 : nm ≠ nm' := fun he => (List.nodup_cons.mp hnd).1 (he ▸ hmem)
      simp [h1, h2]
    cases k with
    | zero =>
      have hget : (nm :: tl).get ⟨0, hk⟩ = nm := rfl
      rw [hget]
      simp only [List.foldl_cons, hstep]
      refine dictLookup_foldl_preserve tl _ nm (d.length + 0 + 1) ?_
      rw [dictLookup_append, hnm]
      simp
    | succ k' =>
      simp only [List.length_cons] at hk
      have hget : (nm :: tl).get ⟨k' + 1, by simp; omega⟩ = tl.get ⟨k', by omega⟩ := rfl
      rw [hget]
      simp only [List.foldl_cons, hstep]
      have := ih (d ++ [(nm, d.length + 1)]) (List.nodup_cons.mp hnd).2 hd' k' (by omega)
      rw [this]
      simp
      omega

theorem buildModelDict_single_lookup (ms : List String) (h : ms.Nodup)
    (k : Nat) (hk : k < ms.length) :
    dictLookup (buildModelDict [ms]) (ms.get ⟨k, hk⟩) = some (k + 1) := by
  have := foldl_addModel_lookup ms [] h (fun _ _ => rfl) k hk
  simpa [buildModelDict] using this

theorem pass1_seen_preserved :
    ∀ (msgs : List Msg) (s s' : Pass1State),
      optFoldList pass1step s msgs = some s' → s.server_info_seen = true →
      s'.models = s.models ∧ s'.max_clients = s.max_clients := by
  intro msgs
  induction msgs with
  | nil =>
    intro s s' hf _
    cases hf
    exact ⟨rfl, rfl⟩
  | cons m tl ih =>
    intro s s' hf h
    unfold optFoldList at hf
    cases m with
    | serverInfo ms mc r =>
      simp only [pass1step, h, if_true] at hf
      cases hf
    | entityUpdate u =>
      simp only [pass1step] at hf
      have hres := ih _ _ hf h
      exact hres
    | _ =>
      simp only [pass1step] at hf
      exact ih _ _ hf h

theorem pass1_seen_no_si :
    ∀ (msgs : List Msg) (s s' : Pass1State),
      optFoldList pass1step s msgs = some s' → s.server_info_seen = true →
      ∀ ms mc r, Msg.serverInfo ms mc r ∉ msgs := by
  intro msgs
  induction msgs with
  | nil => intro s s' _ _ ms mc r; exact List.not_mem_nil _
  | cons m tl ih =>
    intro s s' hf h ms mc r
    unfold optFoldList at hf
    cases m with
    | serverInfo ms0 mc0 r0 =>
      simp only [pass1step, h, if_true] at hf
      cases hf
    | entityUpdate u =>
      simp only [pass1step] at hf
      simp only [List.mem_cons]
      rintro (he | hm)
      · cases he
      · have hres := ih _ _ hf h ms mc r
        exact hres hm
    | _ =>
      simp only [pass1step] at hf
      simp only [List.mem_cons]
      rintro (he | hm)
      · cases he
      · exact ih _ _ hf h ms mc r hm

theorem pass1_serverinfo_fields :
    ∀ (msgs : List Msg) (s s' : Pass1State),
      optFoldList pass1step s msgs = some s' → s.server_info_seen = false →
      ∀ ms mc r, Msg.serverInfo ms mc r ∈ msgs →
      s'.models = some ms ∧ s'.max_clients = some mc := by
  intro msgs
  induction msgs with
  | nil => intro s s' _ _ ms mc r hm; exact absurd hm (List.not_mem_nil _)
  | cons m tl ih =>
    intro s s' hf h ms mc r hm
    unfold optFoldList at hf
    cases m with
    | serverInfo ms0 mc0 r0 =>
      simp only [pass1step, h, if_false, Bool.false_eq_true] at hf
      rcases List.mem_cons.mp hm with he | hmem
      · cases he
        have := pass1_seen_preserved tl _ s' hf rfl
        simpa using this
      · exact absurd hmem (pass1_seen_no_si tl _ s' hf rfl ms mc r)
    | entityUpdate u =>
      simp only [pass1step] at hf
      rcases List.mem_cons.mp hm with he | hmem
      · cases he
      · have hres := ih _ _ hf h ms mc r hmem
        exact hres
    | _ =>
      simp only [pass1step] at hf
      rcases List.mem_cons.mp hm with he | hmem
      · cases he
      · exact ih _ _ hf h ms mc r hmem

theorem process_serverinfo_consistent (blocks : List Block) (info : BaseInfo)
    (h : BaseInfo.process blocks = some info) :
    ∀ ms mc r, Msg.serverInfo ms mc r ∈ (blocks.map Block.messages).flatten →
      info.models = some ms ∧ info.max_clients = some mc := by
  unfold BaseInfo.process at h
  split at h
  · cases h
  · rename_i s h1
    split at h
    · cases h
    · rename_i fnce h2
      cases h
      intro ms mc r hm
      exact pass1_serverinfo_fields _ _ s h1 rfl ms mc r hm

theorem convertModelNum_id (models : List String) (h : models.Nodup) (mi : Option Nat)
    (hok : modelIdxOk models mi = true) :
    convertModelNum (buildModelDict [models]) (some models) mi = some mi := by
  rcases mi with _ | k
  · rfl
  · rcases k with _ | k
    · rfl
    · have hk : k < models.length := by simpa [modelIdxOk] using hok
      have hg : models.get? k = some (models.get ⟨k, hk⟩) := List.get?_eq_get hk
      simp only [convertModelNum, hg, buildModelDict_single_lookup models h k hk]

theorem convert_entity_id_self (n x : Nat) : convert_entity_id n n x = x := by
  unfold convert_entity_id
  split <;> omega

theorem convert_msg_entity_id (conv : Nat → Nat) (hc : ∀ x, conv x = x) (m : Msg) :
    convert_msg_entity conv m = m := by
  cases m <;> simp [convert_msg_entity, hc]

theorem rewriteMsg1_id (models : List String) (hnd : models.Nodup) (mc : Nat) (m : Msg)
    (hok : msgModelOk models m = true)
    (hsi : ∀ ms mcx r, m = Msg.serverInfo ms mcx r → mcx = mc) :
    rewriteMsg1 (buildModelDict [models]) (some models) (convert_entity_id mc mc) mc m
      = some m := by
  cases m with
  | spawnStatic mi r =>
    have := convertModelNum_id models hnd mi (by simpa [msgModelOk] using hok)
    simp [rewriteMsg1, this]
  | spawnBaseline b =>
    have := convertModelNum_id models hnd b.modelindex (by simpa [msgModelOk] using hok)
    simp [rewriteMsg1, this, convert_entity_id_self]
  | entityUpdate u =>
    have := convertModelNum_id models hnd u.modelindex (by simpa [msgModelOk] using hok)
    simp [rewriteMsg1, this, convert_entity_id_self]
  | serverInfo ms mcx r =>
    have := hsi ms mcx r rfl
    subst this
    rfl
  | setView v => rfl
  | updateName pid nm => rfl
  | updateColors pid c => rfl
  | time t => rfl
  | signOnNum st => rfl
  | sound e r =>
    simp [rewriteMsg1, convert_msg_entity, convert_entity_id_self]
  | tempEntity isL beam r =>
    simp [rewriteMsg1, convert_msg_entity, convert_entity_id_self]
  | other p => rfl

theorem rewriteLoop_id_aux (dict : List (String × Nat)) (models : Option (List String))
    (conv : Nat → Nat) (newN : Nat) :
    ∀ (msgs : List Msg) (acc : List Msg) (li : Option Nat),
      (∀ m ∈ msgs, rewriteMsg1 dict models conv newN m = some m) →
      ∃ li', optFoldList (rewriteLoopStep dict models conv newN) (acc, li) msgs
               = some (acc ++ msgs, li') := by
  intro msgs
  induction msgs with
  | nil =>
    intro acc li _
    exact ⟨li, by simp [optFoldList]⟩
  | cons m tl ih =>
    intro acc li h
    have hm := h m (List.mem_cons_self m tl)
    have hstep : optFoldList (rewriteLoopStep dict models conv newN) (acc, li) (m :: tl)
        = optFoldList (rewriteLoopStep dict models conv newN)
            (acc ++ [m], if isSpawnBaseline m then some acc.length else li) tl := by
      simp [optFoldList, rewriteLoopStep, hm]
    rw [hstep]
    obtain ⟨li', hli⟩ := ih (acc ++ [m]) (if isSpawnBaseline m then some acc.length else li)
      (fun m' hm' => h m' (List.mem_cons_of_mem m hm'))
    exact ⟨li', by rw [hli]; simp⟩

theorem rewriteLoop_id (dict : List (String × Nat)) (models : Option (List String))
    (conv : Nat → Nat) (newN : Nat) (msgs : List Msg)
    (h : ∀ m ∈ msgs, rewriteMsg1 dict models conv newN m = some m) :
    ∃ li, rewriteLoop dict models conv newN msgs = some (msgs, li) := by
  obtain ⟨li, hli⟩ := rewriteLoop_id_aux dict models conv newN msgs [] none h
  exact ⟨li, by simpa [rewriteLoop] using hli⟩

theorem rewriteBlock_id (dict : List (String × Nat)) (models : Option (List String))
    (mc : Nat) (block : Block)
    (h : ∀ m ∈ block.messages,
      rewriteMsg1 dict models (convert_entity_id mc mc) mc m = some m) :
    rewriteBlock dict models mc mc [] [] block = some block := by
  obtain ⟨li, hli⟩ := rewriteLoop_id dict models (convert_entity_id mc mc) mc block.messages h
  have h2 : (if block.messages.any isSpawnBaseline = true then
      addGhostBaselines dict (List.zip [] []) li block.messages
      else some block.messages) = some block.messages := by
    split <;> rfl
  have h3 : (if block.messages.any isSignOn3 = true then
      addNameColors mc (List.zip [] []) block.messages
      else block.messages) = block.messages := by
    split <;> rfl
  have h4 : (match block.messages with
             | Msg.time t :: _ => addGhostUpdates dict (List.zip [] []) t block.messages
             | _ => some block.messages) = some block.messages := by
    cases hbm : block.messages with
    | nil => rfl
    | cons hd tl => cases hd <;> rfl
  simp only [rewriteBlock, hli, h2, h3, h4]

/-- C4 (amended): merging with zero ghosts reproduces the base block sequence
exactly, provided the base demo analyzes successfully, its client count is
within capacity, its model list has no duplicate names, and every model index
is resolvable — every message passes through unchanged, the client count is
rewritten to its original value, and no baselines, name/color announcements
or ghost updates are added. -/
theorem c4_zero_ghosts (blocks : List Block) (info : BaseInfo) (models : List String) (mc : Nat)
    (h1 : BaseInfo.process blocks = some info)
    (h2 : info.models = some models)
    (h3 : info.max_clients = some mc)
    (h4 : mc ≤ MAX_SCOREBOARD)
    (h5 : models.Nodup)
    (h6 : ∀ b ∈ blocks, ∀ m ∈ b.messages, msgModelOk models m = true) :
    mainRewrite blocks [] = some blocks := by
  have hnew : new_num_clients mc 0 = mc := by
    have h4' : mc ≤ 16 := h4
    simp only [new_num_clients, MAX_SCOREBOARD]
    omega
  have hblock : ∀ b ∈ blocks,
      rewriteBlock (buildModelDict [models]) (some models) mc mc [] [] b = some b := by
    intro b hb
    apply rewriteBlock_id
    intro m hm
    apply rewriteMsg1_id models h5 mc m (h6 b hb m hm)
    intro ms mcx r hms
    subst hms
    have hmem : Msg.serverInfo ms mcx r ∈ (blocks.map Block.messages).flatten := by
      rw [List.mem_flatten]
      exact ⟨b.messages, List.mem_map_of_mem Block.messages hb, hm⟩
    have hc := (process_serverinfo_consistent blocks info h1 ms mcx r hmem).2
    rw [h3] at hc
    exact (Option.some.inj hc).symm
  unfold mainRewrite
  simp only [h1, h2, h3, List.length_nil, hnew, optMapList, if_pos h4]
  have hg : computeGhostIds mc (new_num_clients mc 0) info.max_entity_id 0 = some [] := by
    rw [hnew]
    rfl
  simp only [hnew] at hg
  simp only [hg]
  exact optMapList_id _ blocks hblock

/-- Counterexample to C4 as stated: a base demo whose model list contains the
same name twice is silently rewritten even with zero ghosts — a model index
pointing at the second copy is remapped to the first-seen index, so the
output block sequence differs from the input. -/
theorem c4_counterexample :
    mainRewrite [⟨[Msg.serverInfo ["a", "a"] 1 0, Msg.spawnStatic (some 2) 0], 0⟩] []
      = some [⟨[Msg.serverInfo ["a", "a"] 1 0, Msg.spawnStatic (some 1) 0], 0⟩]
    ∧ ([(⟨[Msg.serverInfo ["a", "a"] 1 0, Msg.spawnStatic (some 1) 0], 0⟩ : Block)]
        ≠ [(⟨[Msg.serverInfo ["a", "a"] 1 0, Msg.spawnStatic (some 2) 0], 0⟩ : Block)]) := by
  exact ⟨by decide, by decide⟩

/-- Witness for C4: the round-trip statement on a concrete analyzable demo. -/
theorem c4_witness :
    BaseInfo.process exBlocksC4 = some exInfoC4
    ∧ exInfoC4.models = some ["a"]
    ∧ exInfoC4.max_clients = some 1
    ∧ 1 ≤ MAX_SCOREBOARD
    ∧ (["a"] : List String).Nodup
    ∧ (∀ b ∈ exBlocksC4, ∀ m ∈ b.messages, msgModelOk ["a"] m = true)
    ∧ mainRewrite exBlocksC4 [] = some exBlocksC4 :=
  ⟨by decide, rfl, rfl, by decide, by decide, by decide,
   c4_zero_ghosts exBlocksC4 exInfoC4 ["a"] 1 (by decide) rfl rfl (by decide) (by decide)
     (by decide)⟩
